import Mathlib

/-!
Shallow embedding of the wandb core Writer
(`core/internal/server/stream/writer.go`) together with the persistence
worker goroutine it launches in `startStore`.

Modelling conventions:
* A Go channel is modelled by the list of values handed to it, in order;
  a nil channel (never `make`d) is `Option.none`, and a send on it blocks
  forever, surfacing as the `StepResult.blockedOnNilStore` outcome.
* The Go code passes `*pb.Record` pointers.  `storeRecord` mutates the
  pointee's `Num` field after `sendRecord` has already queued the same
  pointer, so a consumer of either channel observes the record at its
  final (post-`handleRecord`) value; channel entries are therefore
  recorded at that final value.
* `proto.Marshal` and `store.Write`/`store.Open` are external
  collaborators (their code is not part of this slice); their outcomes
  are oracle parameters (`m`, `w`, `openOk`).
* The single Writer loop goroutine is serialised together with the
  persistence worker in the order guaranteed by the code's
  happens-before edges (channel sends precede receives; `wg.Wait`
  precedes `Do` returning).  Every event ordering stated below is an
  ordering the code guarantees in all schedules.
* Each processing step is instrumented with a trace of events so that
  ordering claims (forward attempted before persist attempted, drain
  before close, ...) can be stated.
-/

namespace WandbWriter

/-- The payload variant of a `pb.Record`: the `Record_Request` case, the
`nil` case, or any of the data variants (the `default` branch of
`handleRecord`), collapsed to one constructor. -/
inductive RecordType where
  | request : RecordType
  | data : RecordType
  | nil : RecordType
deriving Repr, DecidableEq

/-- The record's `Control` sub-message: the `Local` and `AlwaysSend`
boolean flags read by `storeRecord` and `sendRecord`. -/
structure Control where
  localFlag : Bool := false
  alwaysSend : Bool := false
deriving Repr, DecidableEq

/-- A `pb.Record`: its payload variant, control flags, the mutable `Num`
sequence-number field (int64, unset/zero on arrival) and an opaque
identifier standing for the rest of the payload content. -/
structure Record where
  recordType : RecordType
  control : Control := {}
  num : Int := 0
  payload : Nat := 0
deriving Repr, DecidableEq

/-- The `Settings` fields the Writer reads: `GetXOffline` and `GetXSync`. -/
structure Settings where
  xOffline : Bool
  xSync : Bool
deriving Repr, DecidableEq

/-- Trace events emitted by the Writer loop, the lifecycle code in
`Do`/`Close`, and the persistence worker. -/
inductive Event where
  | sendAttempt : Nat → Event
  | sent : Nat → Event
  | storeAttempt : Nat → Event
  | queuedEv : Nat → Int → Event
  | nilLogged : Nat → Event
  | fwdClosed : Event
  | storeChanClosed : Event
  | closedLogged : Event
  | marshalFailed : Record → Event
  | writeFailed : Record → Event
  | wrote : Record → Event
  | storeClosed : Event
  | doReturned : Event
deriving Repr, DecidableEq

/-- The Writer's mutable state: the `recordNum` counter, the two outbound
channels (`fwdChan`; `storeChan`, which is `none` when nil) and the
instrumentation trace. -/
structure WriterState where
  recordNum : Int
  fwdChan : List Record
  storeChan : Option (List Record)
  trace : List Event
deriving Repr, DecidableEq

/-- Outcome of one step (or a run) of the Writer loop: either it finished
normally, or it is blocked forever in a send on the nil `storeChan`
(recording the state at the moment of the send, the index of the record
being handled, and the record value being sent). -/
inductive StepResult where
  | ok : WriterState → StepResult
  | blockedOnNilStore : WriterState → Nat → Record → StepResult
deriving Repr, DecidableEq

/-- `Writer.sendRecord`: return without forwarding when
`settings.GetXOffline() && !record.GetControl().GetAlwaysSend()`,
otherwise hand the record to `fwdChan`.  `i` is the arrival index of the
record, used only for the trace. -/
def sendRecord (settings : Settings) (st : WriterState) (i : Nat) (r : Record) :
    WriterState :=
  if settings.xOffline && !r.control.alwaysSend then
    { st with trace := st.trace ++ [Event.sendAttempt i] }
  else
    { st with fwdChan := st.fwdChan ++ [r],
              trace := st.trace ++ [Event.sendAttempt i, Event.sent i] }

/-- `Writer.storeRecord`: return at once when the record's `Local` flag is
set; otherwise increment `recordNum`, write it into the record's `Num`
field, and send the record on `storeChan`.  A send on a nil channel
blocks forever. -/
def storeRecord (st : WriterState) (i : Nat) (r : Record) : StepResult :=
  if r.control.localFlag then
    StepResult.ok { st with trace := st.trace ++ [Event.storeAttempt i] }
  else
    let n := st.recordNum + 1
    let r' := { r with num := n }
    match st.storeChan with
    | Option.none =>
        StepResult.blockedOnNilStore
          { st with recordNum := n, trace := st.trace ++ [Event.storeAttempt i] } i r'
    | Option.some q =>
        StepResult.ok
          { st with recordNum := n, storeChan := Option.some (q ++ [r']),
                    trace := st.trace ++ [Event.storeAttempt i, Event.queuedEv i n] }

/-- The value the record object holds once `handleRecord` is done with it:
`storeRecord` writes `recordNum + 1` into `Num` unless the record is
`Local` (or never reaches `storeRecord`).  Because the channels carry the
pointer, this is the value consumers of `fwdChan` observe. -/
def recordFinal (st : WriterState) (r : Record) : Record :=
  if r.control.localFlag then r else { r with num := st.recordNum + 1 }

/-- `Writer.handleRecord`: requests are only sent; a nil payload variant is
logged and dropped; any data variant is sent first and then stored.  In
the data branch the forwarded channel entry is recorded at the record's
final value (`recordFinal`), because the Go channels carry the same
pointer that `storeRecord` subsequently mutates. -/
def handleRecord (settings : Settings) (st : WriterState) (i : Nat) (r : Record) :
    StepResult :=
  match r.recordType with
  | RecordType.request => StepResult.ok (sendRecord settings st i r)
  | RecordType.nil =>
      StepResult.ok { st with trace := st.trace ++ [Event.nilLogged i] }
  | RecordType.data =>
      storeRecord (sendRecord settings st i (recordFinal st r)) i r

/-- The `for record := range inChan` loop of `Writer.Do`: handle each
record in arrival order; a blocked send on the nil store channel stalls
the loop forever (no later record is processed). -/
def doLoop (settings : Settings) (st : WriterState) (i : Nat) :
    List Record → StepResult
  | [] => StepResult.ok st
  | r :: rs =>
      match handleRecord settings st i r with
      | StepResult.ok st' => doLoop settings st' (i + 1) rs
      | StepResult.blockedOnNilStore st' j rb => StepResult.blockedOnNilStore st' j rb

/-- Outcome of `Writer.startStore`: either the store stage is up (with
`storeChan = none` when `x_sync` made `startStore` return before creating
it), or `store.Open` failed and `CaptureFatalAndPanic` aborted start-up. -/
inductive StartResult where
  | started : Option (List Record) → StartResult
  | fatal : StartResult
deriving Repr, DecidableEq

/-- `Writer.startStore`: return immediately when `x_sync` is set (no
channel, no store); otherwise create `storeChan` and open the store,
panicking fatally when `Open` fails.  `openOk` is the oracle for the
external `store.Open` call. -/
def startStore (settings : Settings) (openOk : Bool) : StartResult :=
  if settings.xSync then StartResult.started Option.none
  else if openOk then StartResult.started (Option.some [])
  else StartResult.fatal

/-- The body of the persistence-worker goroutine launched by `startStore`,
run over the records drained from `storeChan`: marshal each record
(oracle `m`; `none` is a `proto.Marshal` failure, logged and skipped),
then `store.Write` the frame (oracle `w`; `false` is a write failure,
logged and skipped).  Returns the worker's events and the frames
actually appended to the store. -/
def workerLoop (m : Record → Option (List Nat)) (w : List Nat → Bool) :
    List Record → List Event × List (List Nat)
  | [] => ([], [])
  | r :: rs =>
      let rest := workerLoop m w rs
      match m r with
      | Option.none => (Event.marshalFailed r :: rest.1, rest.2)
      | Option.some out =>
          if w out then (Event.wrote r :: rest.1, out :: rest.2)
          else (Event.writeFailed r :: rest.1, rest.2)

/-- The events of the persistence worker's drain. -/
def workerRun (m : Record → Option (List Nat)) (w : List Nat → Bool)
    (q : List Record) : List Event :=
  (workerLoop m w q).1

/-- The frames the persistence worker appends to the store. -/
def workerDrain (m : Record → Option (List Nat)) (w : List Nat → Bool)
    (q : List Record) : List (List Nat) :=
  (workerLoop m w q).2

/-- Outcome of `Writer.Do`: fatal abort in `startStore`, the loop blocked
forever on the nil store channel, or a completed run (final state with
full trace, plus the frames the worker wrote to the store). -/
inductive DoResult where
  | fatalOpen : DoResult
  | blocked : WriterState → Nat → Record → DoResult
  | completed : WriterState → List (List Nat) → DoResult
deriving Repr, DecidableEq

/-- `Writer.Do`: run `startStore`, process the whole inbound channel, then
`Close()` (close `fwdChan`; close `storeChan` when it is not nil; log
"writer: closed") and `wg.Wait()` (the worker drains the queued records
and closes the store exactly once), and only then return control to the
caller (`doReturned`). -/
def writerDo (settings : Settings) (openOk : Bool)
    (m : Record → Option (List Nat)) (w : List Nat → Bool)
    (input : List Record) : DoResult :=
  match startStore settings openOk with
  | StartResult.fatal => DoResult.fatalOpen
  | StartResult.started sc =>
      match doLoop settings ⟨0, [], sc, []⟩ 0 input with
      | StepResult.blockedOnNilStore st j rb => DoResult.blocked st j rb
      | StepResult.ok st =>
          match st.storeChan with
          | Option.none =>
              DoResult.completed
                { st with trace := st.trace ++
                    [Event.fwdClosed, Event.closedLogged, Event.doReturned] } []
          | Option.some q =>
              DoResult.completed
                { st with trace := st.trace ++
                    [Event.fwdClosed, Event.storeChanClosed, Event.closedLogged] ++
                    workerRun m w q ++ [Event.storeClosed, Event.doReturned] }
                (workerDrain m w q)

/-- A record is handed to the store channel iff it is a data record (the
`default` branch of `handleRecord`) whose `Local` flag is unset. -/
def persistEligible (r : Record) : Bool :=
  (match r.recordType with
   | RecordType.data => true
   | _ => false) && !r.control.localFlag

/-- Spec-side model of the sequence-number assignment: the persisted
records receive `Num = n, n+1, ...` in order ("1 + the count of
previously-persisted records" when started at `n = 1`). -/
def assignNums (n : Int) : List Record → List Record
  | [] => []
  | r :: rs => { r with num := n } :: assignNums (n + 1) rs

/-- Trivial marshal oracle used by concrete witnesses. -/
def mTriv : Record → Option (List Nat) := fun r => Option.some [r.payload]

/-- Trivial write oracle used by concrete witnesses. -/
def wTriv : List Nat → Bool := fun _ => true

/-- Concrete records for the scenario of spec §8.7. -/
def recA : Record := { recordType := RecordType.data, payload := 1 }

def recB : Record := { recordType := RecordType.request, payload := 2 }

def recC : Record :=
  { recordType := RecordType.data, control := { localFlag := true }, payload := 3 }

def recD : Record :=
  { recordType := RecordType.data, control := { alwaysSend := true }, payload := 4 }

/-- The condition under which `sendRecord` hands the record to `fwdChan`
(the negation of its early-return guard). -/
def sendPass (settings : Settings) (r : Record) : Bool :=
  !(settings.xOffline && !r.control.alwaysSend)

/-- The `recordNum` counter after one record is handled. -/
def nextNum (n : Int) (r : Record) : Int :=
  if persistEligible r then n + 1 else n

/-- Spec-side model of what one record contributes to `fwdChan` when the
counter stands at `n` (forwarded entries are observed at their final
value, see `recordFinal`). -/
def fwdRecordModel (settings : Settings) (n : Int) (r : Record) : List Record :=
  match r.recordType with
  | RecordType.nil => []
  | RecordType.request => if sendPass settings r then [r] else []
  | RecordType.data =>
      if sendPass settings r then
        [if r.control.localFlag then r else { r with num := n + 1 }]
      else []

/-- Spec-side model of the full `fwdChan` contents. -/
def fwdModel (settings : Settings) (n : Int) : List Record → List Record
  | [] => []
  | r :: rs => fwdRecordModel settings n r ++ fwdModel settings (nextNum n r) rs

/-- The events one record's `handleRecord` call emits when the counter
stands at `n` and the record's arrival index is `i`. -/
def recordEvents (settings : Settings) (n : Int) (i : Nat) (r : Record) :
    List Event :=
  match r.recordType with
  | RecordType.nil => [Event.nilLogged i]
  | RecordType.request =>
      if sendPass settings r then [Event.sendAttempt i, Event.sent i]
      else [Event.sendAttempt i]
  | RecordType.data =>
      (if sendPass settings r then [Event.sendAttempt i, Event.sent i]
       else [Event.sendAttempt i]) ++
      (if r.control.localFlag then [Event.storeAttempt i]
       else [Event.storeAttempt i, Event.queuedEv i (n + 1)])

/-- The events of the whole Writer loop. -/
def loopEvents (settings : Settings) (n : Int) (i : Nat) :
    List Record → List Event
  | [] => []
  | r :: rs =>
      recordEvents settings n i r ++ loopEvents settings (nextNum n r) (i + 1) rs

/-- The Writer state carried by a `DoResult` (a default for `fatalOpen`,
which carries none). -/
def stOf : DoResult → WriterState
  | DoResult.fatalOpen => ⟨0, [], Option.none, []⟩
  | DoResult.blocked st _ _ => st
  | DoResult.completed st _ => st

/-- The frames carried by a completed `DoResult`. -/
def framesOf : DoResult → List (List Nat)
  | DoResult.completed _ fs => fs
  | _ => []

/-- The Writer state carried by a `StepResult`. -/
def stepState : StepResult → WriterState
  | StepResult.ok st => st
  | StepResult.blockedOnNilStore st _ _ => st

/-- The arrival index an event refers to (`none` for lifecycle and worker
events). -/
def eventIdx : Event → Option Nat
  | Event.sendAttempt i => Option.some i
  | Event.sent i => Option.some i
  | Event.storeAttempt i => Option.some i
  | Event.queuedEv i _ => Option.some i
  | Event.nilLogged i => Option.some i
  | _ => Option.none

/-- The record a worker event refers to (`none` for all other events). -/
def evtRecord : Event → Option Record
  | Event.marshalFailed r => Option.some r
  | Event.writeFailed r => Option.some r
  | Event.wrote r => Option.some r
  | _ => Option.none

/-- The loop-visible part of a `StepResult`: outcome kind, counter,
channels, and (when blocked) the record being sent — everything except
the instrumentation trace and indices. -/
def resultObs : StepResult → Bool × Int × List Record × Option (List Record) × Option Record
  | StepResult.ok st => (true, st.recordNum, st.fwdChan, st.storeChan, Option.none)
  | StepResult.blockedOnNilStore st _ rb =>
      (false, st.recordNum, st.fwdChan, st.storeChan, Option.some rb)

theorem handleRecord_some (settings : Settings) (n : Int) (f q : List Record)
    (t : List Event) (i : Nat) (r : Record) :
    handleRecord settings ⟨n, f, Option.some q, t⟩ i r =
      StepResult.ok ⟨nextNum n r, f ++ fwdRecordModel settings n r,
        Option.some (q ++ (if persistEligible r then [{ r with num := n + 1 }] else [])),
        t ++ recordEvents settings n i r⟩ := by
  obtain ⟨xo, xs⟩ := settings
  obtain ⟨rt, ⟨lf, as⟩, nm, pl⟩ := r
  cases rt <;> cases lf <;> cases as <;> cases xo <;>
    simp [handleRecord, sendRecord, storeRecord, recordFinal, fwdRecordModel,
      recordEvents, sendPass, persistEligible, nextNum]

theorem doLoop_char (settings : Settings) :
    ∀ (rs : List Record) (n : Int) (f q : List Record) (t : List Event) (i : Nat),
    doLoop settings ⟨n, f, Option.some q, t⟩ i rs =
      StepResult.ok ⟨n + ((rs.filter persistEligible).length : Int),
        f ++ fwdModel settings n rs,
        Option.some (q ++ assignNums (n + 1) (rs.filter persistEligible)),
        t ++ loopEvents settings n i rs⟩ := by
  intro rs
  induction rs with
  | nil => intro n f q t i; simp [doLoop, fwdModel, loopEvents, assignNums]
  | cons r rs ih =>
      intro n f q t i
      rw [doLoop, handleRecord_some]
      have step := ih (nextNum n r) (f ++ fwdRecordModel settings n r)
        (q ++ (if persistEligible r then [{ r with num := n + 1 }] else []))
        (t ++ recordEvents settings n i r) (i + 1)
      refine Eq.trans step ?_
      by_cases he : persistEligible r = true
      · simp [he, fwdModel, loopEvents, nextNum, assignNums, List.filter_cons,
          List.append_assoc]
        omega
      · simp at he
        simp [he, fwdModel, loopEvents, nextNum, assignNums, List.filter_cons,
          List.append_assoc]

theorem writerDo_completed_char (settings : Settings)
    (m : Record → Option (List Nat)) (w : List Nat → Bool)
    (input : List Record) (hSync : settings.xSync = false) :
    writerDo settings true m w input =
      DoResult.completed
        ⟨((input.filter persistEligible).length : Int),
         fwdModel settings 0 input,
         Option.some (assignNums 1 (input.filter persistEligible)),
         loopEvents settings 0 0 input ++
           [Event.fwdClosed, Event.storeChanClosed, Event.closedLogged] ++
           workerRun m w (assignNums 1 (input.filter persistEligible)) ++
           [Event.storeClosed, Event.doReturned]⟩
        (workerDrain m w (assignNums 1 (input.filter persistEligible))) := by
  have hstart : startStore settings true = StartResult.started (Option.some []) := by
    simp [startStore, hSync]
  have hchar := doLoop_char settings input 0 [] [] [] 0
  simp only [writerDo, hstart, hchar, List.nil_append, zero_add]

example :
    storeRecord ⟨0, [], Option.some [], []⟩ 0 recA =
      StepResult.ok ⟨1, [], Option.some [{ recA with num := 1 }],
        [Event.storeAttempt 0, Event.queuedEv 0 1]⟩ := by decide

example :
    sendRecord ⟨true, false⟩ ⟨0, [], Option.some [], []⟩ 0 recB =
      ⟨0, [], Option.some [], [Event.sendAttempt 0]⟩ := by decide

/-- C1: in a run with a store (no `x_sync`, `Open` succeeded), the store
channel receives exactly the non-local data records, in arrival order,
carrying sequence numbers `1, 2, ...` — a gap-free strictly increasing
enumeration of the persisted subset — and the final `recordNum` equals
the number of persisted records, so records with `local` set, requests
and nil-variant records never consume a sequence number. -/
theorem c1_sequence_numbers (settings : Settings)
    (m : Record → Option (List Nat)) (w : List Nat → Bool)
    (input : List Record) (st : WriterState) (frames : List (List Nat))
    (hSync : settings.xSync = false)
    (hDo : writerDo settings true m w input = DoResult.completed st frames) :
    st.storeChan = Option.some (assignNums 1 (input.filter persistEligible)) ∧
    st.recordNum = ((input.filter persistEligible).length : Int) := by
  rw [writerDo_completed_char settings m w input hSync] at hDo
  injection hDo with h1 h2
  subst h1
  exact ⟨rfl, rfl⟩

/-- C1 witness: the scenario input run online. -/
theorem c1_sequence_numbers_witness :
    (stOf (writerDo ⟨false, false⟩ true mTriv wTriv [recA, recB, recC, recD])).storeChan =
      Option.some (assignNums 1 ([recA, recB, recC, recD].filter persistEligible)) ∧
    (stOf (writerDo ⟨false, false⟩ true mTriv wTriv [recA, recB, recC, recD])).recordNum =
      ((([recA, recB, recC, recD].filter persistEligible)).length : Int) :=
  c1_sequence_numbers ⟨false, false⟩ mTriv wTriv [recA, recB, recC, recD]
    (stOf (writerDo ⟨false, false⟩ true mTriv wTriv [recA, recB, recC, recD]))
    (framesOf (writerDo ⟨false, false⟩ true mTriv wTriv [recA, recB, recC, recD]))
    rfl rfl

/-- C2 counterexample: with `x_offline` set, a request record whose
`always_send` flag is unset is NOT handed to the forwarding channel —
`sendRecord`'s suppression guard applies to request records too, so the
claim that requests bypass the offline rule fails on this input. -/
theorem c2_counterexample :
    (stepState (handleRecord ⟨true, false⟩ ⟨0, [], Option.some [], []⟩ 0 recB)).fwdChan
      ≠ [recB] ∧
    (stepState (handleRecord ⟨true, false⟩ ⟨0, [], Option.some [], []⟩ 0 recB)).fwdChan
      = [] := by decide

/-- C2 (amended): a request record is never persisted and never consumes a
sequence number, and it is forwarded exactly when the same offline
suppression rule that governs data records passes, i.e. unless
`x_offline` is set and the record's `always_send` flag is not. -/
theorem c2_request_forwarding (settings : Settings) (st : WriterState) (i : Nat)
    (r : Record) (h : r.recordType = RecordType.request) :
    ∃ st', handleRecord settings st i r = StepResult.ok st' ∧
      st'.fwdChan = (if settings.xOffline && !r.control.alwaysSend
        then st.fwdChan else st.fwdChan ++ [r]) ∧
      st'.storeChan = st.storeChan ∧
      st'.recordNum = st.recordNum := by
  refine ⟨sendRecord settings st i r, ?_, ?_, ?_, ?_⟩ <;>
    by_cases hc : (settings.xOffline && !r.control.alwaysSend) = true <;>
      simp [handleRecord, sendRecord, h, hc]

/-- C2 witness: a request record forwarded while online. -/
theorem c2_request_forwarding_witness :
    ∃ st', handleRecord ⟨false, false⟩ ⟨0, [], Option.some [], []⟩ 0 recB =
        StepResult.ok st' ∧
      st'.fwdChan = (if (Settings.mk false false).xOffline && !recB.control.alwaysSend
        then [] else [] ++ [recB]) ∧
      st'.storeChan = Option.some [] ∧
      st'.recordNum = 0 :=
  c2_request_forwarding ⟨false, false⟩ ⟨0, [], Option.some [], []⟩ 0 recB rfl

/-- C4: for a data record, the forwarding decision is exactly the offline
rule (`forwarded ↔ ¬(x_offline ∧ ¬always_send)`, so with `x_offline`
false every data record is forwarded), while the persistence decision and
the counter update depend only on the `local` flag — not on `x_offline`
or `always_send`. -/
theorem c4_offline_rule (settings : Settings) (n : Int) (f q : List Record)
    (t : List Event) (i : Nat) (r : Record)
    (h : r.recordType = RecordType.data) :
    ∃ st', handleRecord settings ⟨n, f, Option.some q, t⟩ i r = StepResult.ok st' ∧
      st'.fwdChan = (if settings.xOffline && !r.control.alwaysSend then f
        else f ++ [if r.control.localFlag then r else { r with num := n + 1 }]) ∧
      st'.storeChan = (if r.control.localFlag then Option.some q
        else Option.some (q ++ [{ r with num := n + 1 }])) ∧
      st'.recordNum = (if r.control.localFlag then n else n + 1) := by
  obtain ⟨xo, xs⟩ := settings
  obtain ⟨rt, ⟨lf, as⟩, nm, pl⟩ := r
  subst h
  refine ⟨_, handleRecord_some ⟨xo, xs⟩ n f q t i _, ?_, ?_, ?_⟩ <;>
    cases lf <;> cases as <;> cases xo <;>
      simp [fwdRecordModel, sendPass, persistEligible, nextNum]

/-- C4 witness: an offline run with `always_send` set. -/
theorem c4_offline_rule_witness :
    ∃ st', handleRecord ⟨true, false⟩ ⟨0, [], Option.some [], []⟩ 0 recD =
        StepResult.ok st' ∧
      st'.fwdChan = (if (Settings.mk true false).xOffline && !recD.control.alwaysSend
        then [] else [] ++ [if recD.control.localFlag then recD
          else { recD with num := 0 + 1 }]) ∧
      st'.storeChan = (if recD.control.localFlag then Option.some []
        else Option.some ([] ++ [{ recD with num := 0 + 1 }])) ∧
      st'.recordNum = (if recD.control.localFlag then 0 else 0 + 1) :=
  c4_offline_rule ⟨true, false⟩ 0 [] [] [] 0 recD rfl

/-- C5: a data record that is both forwarded and persisted appears on both
channels as the same record value, with the same `Num` (the Go channels
carry the same pointer, mutated by `storeRecord` to the freshly assigned
sequence number). -/
theorem c5_same_num_both_channels (settings : Settings) (n : Int)
    (f q : List Record) (t : List Event) (i : Nat) (r : Record)
    (h : r.recordType = RecordType.data)
    (hl : r.control.localFlag = false)
    (hs : (settings.xOffline && !r.control.alwaysSend) = false) :
    ∃ r' st', handleRecord settings ⟨n, f, Option.some q, t⟩ i r = StepResult.ok st' ∧
      st'.fwdChan = f ++ [r'] ∧
      st'.storeChan = Option.some (q ++ [r']) ∧
      r'.num = n + 1 := by
  refine ⟨{ r with num := n + 1 }, _, handleRecord_some settings n f q t i r, ?_, ?_, rfl⟩ <;>
    simp [fwdRecordModel, sendPass, persistEligible, nextNum, h, hl, hs]

/-- C5 witness: record D of the scenario, online. -/
theorem c5_same_num_both_channels_witness :
    ∃ r' st', handleRecord ⟨false, false⟩ ⟨0, [], Option.some [], []⟩ 0 recA =
        StepResult.ok st' ∧
      st'.fwdChan = [] ++ [r'] ∧
      st'.storeChan = Option.some ([] ++ [r']) ∧
      r'.num = 0 + 1 :=
  c5_same_num_both_channels ⟨false, false⟩ 0 [] [] [] 0 recA rfl rfl rfl

/-- C6 counterexample: for the scenario input
`[A(data), B(request), C(data, local), D(data, always_send)]` with
`x_offline` set, the forwarding channel does NOT receive B then D —
B is suppressed by the offline rule — so the claimed forwarding output
`[B, D]` is wrong; the channel receives D alone. -/
theorem c6_counterexample :
    (stOf (writerDo ⟨true, false⟩ true mTriv wTriv
        [recA, recB, recC, recD])).fwdChan.map Record.payload
      ≠ [recB.payload, recD.payload] ∧
    (stOf (writerDo ⟨true, false⟩ true mTriv wTriv
        [recA, recB, recC, recD])).fwdChan.map Record.payload
      = [recD.payload] := by decide

/-- C6 (amended): for the scenario input with `x_offline` set, the
forwarding channel receives exactly D (B is suppressed by the offline
rule because its `always_send` flag is unset, like A and C), and the
persistence channel receives exactly A with sequence number 1 then D
with sequence number 2; B and C are never persisted. -/
theorem c6_scenario :
    (stOf (writerDo ⟨true, false⟩ true mTriv wTriv [recA, recB, recC, recD])).fwdChan
      = [{ recD with num := 2 }] ∧
    (stOf (writerDo ⟨true, false⟩ true mTriv wTriv [recA, recB, recC, recD])).storeChan
      = Option.some [{ recA with num := 1 }, { recD with num := 2 }] := by decide

/-- C7: when `store.Open` fails and `x_sync` is not set, `startStore`
raises a fatal error and `Do` never reaches its record loop: no record is
forwarded, persisted or numbered, and no Running-state processing
happens, whatever the inbound records were. -/
theorem c7_fatal_open (settings : Settings) (m : Record → Option (List Nat))
    (w : List Nat → Bool) (input : List Record)
    (hSync : settings.xSync = false) :
    writerDo settings false m w input = DoResult.fatalOpen := by
  simp [writerDo, startStore, hSync]

/-- C7 witness: a concrete failed-open run. -/
theorem c7_fatal_open_witness :
    writerDo ⟨false, false⟩ false mTriv wTriv [recA, recB] = DoResult.fatalOpen :=
  c7_fatal_open ⟨false, false⟩ mTriv wTriv [recA, recB] rfl

theorem handleRecord_none_skip (settings : Settings) (n : Int) (f : List Record)
    (t : List Event) (i : Nat) (r : Record)
    (hr : persistEligible r = false) :
    handleRecord settings ⟨n, f, Option.none, t⟩ i r =
      StepResult.ok ⟨n, f ++ fwdRecordModel settings n r, Option.none,
        t ++ recordEvents settings n i r⟩ := by
  obtain ⟨xo, xs⟩ := settings
  obtain ⟨rt, ⟨lf, as⟩, nm, pl⟩ := r
  cases rt <;> cases lf <;> cases as <;> cases xo <;>
    simp_all [handleRecord, sendRecord, storeRecord, recordFinal, fwdRecordModel,
      recordEvents, sendPass, persistEligible]

theorem handleRecord_none_blocked (settings : Settings) (n : Int) (f : List Record)
    (t : List Event) (i : Nat) (r : Record)
    (hr : persistEligible r = true) :
    handleRecord settings ⟨n, f, Option.none, t⟩ i r =
      StepResult.blockedOnNilStore
        ⟨n + 1, f ++ fwdRecordModel settings n r, Option.none,
          t ++ ((if sendPass settings r then [Event.sendAttempt i, Event.sent i]
                 else [Event.sendAttempt i]) ++ [Event.storeAttempt i])⟩
        i { r with num := n + 1 } := by
  obtain ⟨xo, xs⟩ := settings
  obtain ⟨rt, ⟨lf, as⟩, nm, pl⟩ := r
  cases rt <;> cases lf <;> cases as <;> cases xo <;>
    simp_all [handleRecord, sendRecord, storeRecord, recordFinal, fwdRecordModel,
      recordEvents, sendPass, persistEligible]

theorem doLoop_none_skip (settings : Settings) :
    ∀ (l1 rest : List Record) (n : Int) (f : List Record) (t : List Event) (i : Nat),
      (∀ x ∈ l1, persistEligible x = false) →
      ∃ f' t', doLoop settings ⟨n, f, Option.none, t⟩ i (l1 ++ rest) =
        doLoop settings ⟨n, f', Option.none, t'⟩ (i + l1.length) rest := by
  intro l1
  induction l1 with
  | nil => intro rest n f t i _; exact ⟨f, t, by simp⟩
  | cons x l1 ih =>
      intro rest n f t i hall
      have hx : persistEligible x = false := hall x (by simp)
      have hrest : ∀ y ∈ l1, persistEligible y = false := by
        intro y hy; exact hall y (by simp [hy])
      obtain ⟨f', t', hskip⟩ := ih rest n (f ++ fwdRecordModel settings n x)
        (t ++ recordEvents settings n i x) (i + 1) hrest
      refine ⟨f', t', ?_⟩
      rw [List.cons_append, doLoop, handleRecord_none_skip settings n f t i x hx]
      have harith : i + 1 + l1.length = i + (x :: l1).length := by
        simp only [List.length_cons]; omega
      rw [harith] at hskip
      exact hskip

/-- C10: when `x_sync` is true, `startStore` returns without creating the
store channel, yet a non-local data record still reaches `storeRecord`,
which increments the sequence counter, writes it into the record, and
then sends on the nil channel — blocking the Writer loop forever at the
first such record (records before it are all non-persistable and pass
through; records after it are never processed). -/
theorem c10_nil_store_block (settings : Settings) (openOk : Bool)
    (m : Record → Option (List Nat)) (w : List Nat → Bool)
    (l1 : List Record) (r : Record) (l2 : List Record)
    (hSync : settings.xSync = true)
    (hl1 : ∀ x ∈ l1, persistEligible x = false)
    (hr : persistEligible r = true) :
    ∃ st, writerDo settings openOk m w (l1 ++ r :: l2) =
      DoResult.blocked st l1.length { r with num := 1 } ∧
      st.recordNum = 1 ∧ st.storeChan = Option.none := by
  have hstart : startStore settings openOk = StartResult.started Option.none := by
    simp [startStore, hSync]
  obtain ⟨f', t', hskip⟩ := doLoop_none_skip settings l1 (r :: l2) 0 [] [] 0 hl1
  have hblock := handleRecord_none_blocked settings 0 f' t' (0 + l1.length) r hr
  refine ⟨⟨0 + 1, f' ++ fwdRecordModel settings 0 r, Option.none,
    t' ++ ((if sendPass settings r then [Event.sendAttempt (0 + l1.length), Event.sent (0 + l1.length)]
            else [Event.sendAttempt (0 + l1.length)]) ++ [Event.storeAttempt (0 + l1.length)])⟩,
    ?_, rfl, rfl⟩
  simp only [writerDo, hstart]
  rw [hskip, doLoop, hblock]
  simp

/-- C10 witness: a sync run whose first record is a plain data record. -/
theorem c10_nil_store_block_witness :
    ∃ st, writerDo ⟨false, true⟩ true mTriv wTriv ([] ++ recA :: [recB]) =
      DoResult.blocked st (List.length ([] : List Record)) { recA with num := 1 } ∧
      st.recordNum = 1 ∧ st.storeChan = Option.none :=
  c10_nil_store_block ⟨false, true⟩ true mTriv wTriv [] recA [recB]
    rfl (by simp) rfl

theorem recordEvents_idx (settings : Settings) (n : Int) (i : Nat) (r : Record) :
    ∀ e ∈ recordEvents settings n i r, eventIdx e = Option.some i := by
  intro e he
  obtain ⟨xo, xs⟩ := settings
  obtain ⟨rt, ⟨lf, as⟩, nm, pl⟩ := r
  cases rt <;> cases lf <;> cases as <;> cases xo <;>
    simp only [recordEvents, sendPass, Bool.and_self, Bool.and_true, Bool.and_false,
      Bool.not_true, Bool.not_false, Bool.true_and, Bool.false_and, if_true, if_false,
      Bool.false_eq_true, ite_true, ite_false, List.cons_append, List.nil_append] at he <;>
    fin_cases he <;> rfl

theorem loopEvents_idx (settings : Settings) :
    ∀ (rs : List Record) (n : Int) (i : Nat) (e : Event),
      e ∈ loopEvents settings n i rs → ∃ j, i ≤ j ∧ eventIdx e = Option.some j := by
  intro rs
  induction rs with
  | nil => intro n i e he; simp [loopEvents] at he
  | cons r rs ih =>
      intro n i e he
      rw [loopEvents] at he
      rcases List.mem_append.mp he with h | h
      · exact ⟨i, Nat.le_refl i, recordEvents_idx settings n i r e h⟩
      · obtain ⟨j, hij, hj⟩ := ih (nextNum n r) (i + 1) e h
        exact ⟨j, by omega, hj⟩

theorem recordEvents_send_store (settings : Settings) (n : Int) (i : Nat)
    (r : Record) (h : r.recordType = RecordType.data) :
    List.Sublist [Event.sendAttempt i, Event.storeAttempt i]
      (recordEvents settings n i r) := by
  have h1 : List.Sublist [Event.sendAttempt i]
      (if sendPass settings r then [Event.sendAttempt i, Event.sent i]
       else [Event.sendAttempt i]) := by
    by_cases hc : sendPass settings r = true <;>
      simp [hc, List.cons_sublist_cons, List.nil_sublist]
  have h2 : List.Sublist [Event.storeAttempt i]
      (if r.control.localFlag then [Event.storeAttempt i]
       else [Event.storeAttempt i, Event.queuedEv i (n + 1)]) := by
    by_cases hc : r.control.localFlag = true <;>
      simp [hc, List.cons_sublist_cons, List.nil_sublist]
  have hfull := List.Sublist.append h1 h2
  simpa [recordEvents, h] using hfull

theorem loopEvents_get (settings : Settings) :
    ∀ (rs : List Record) (n : Int) (i : Nat) (j : Nat) (hj : j < rs.length),
      ∃ n' pre post, loopEvents settings n i rs =
        pre ++ (recordEvents settings n' (i + j) (rs.get ⟨j, hj⟩) ++ post) := by
  intro rs
  induction rs with
  | nil => intro n i j hj; exact absurd hj (by simp)
  | cons r rs ih =>
      intro n i j hj
      cases j with
      | zero =>
          refine ⟨n, [], loopEvents settings (nextNum n r) (i + 1) rs, ?_⟩
          simp [loopEvents]
      | succ j =>
          obtain ⟨n', pre, post, hpre⟩ :=
            ih (nextNum n r) (i + 1) j (by simpa using hj)
          refine ⟨n', recordEvents settings n i r ++ pre, post, ?_⟩
          rw [loopEvents, hpre]
          have harith : i + 1 + j = i + (j + 1) := by omega
          rw [harith]
          simp [List.append_assoc, List.get]

theorem loopEvents_pairwise (settings : Settings) :
    ∀ (rs : List Record) (n : Int) (i : Nat),
      ((loopEvents settings n i rs).filterMap eventIdx).Pairwise (· ≤ ·) := by
  intro rs
  induction rs with
  | nil => intro n i; simp [loopEvents]
  | cons r rs ih =>
      intro n i
      rw [loopEvents, List.filterMap_append, List.pairwise_append]
      refine ⟨?_, ih (nextNum n r) (i + 1), ?_⟩
      · refine List.pairwise_of_forall_mem_list ?_
        intro a ha b hb
        obtain ⟨e, he, hei⟩ := List.mem_filterMap.mp ha
        obtain ⟨e', he', hei'⟩ := List.mem_filterMap.mp hb
        have h1 := recordEvents_idx settings n i r e he
        have h2 := recordEvents_idx settings n i r e' he'
        rw [h1] at hei; rw [h2] at hei'
        cases hei; cases hei'
        exact Nat.le_refl _
      · intro a ha b hb
        obtain ⟨e, he, hei⟩ := List.mem_filterMap.mp ha
        have h1 := recordEvents_idx settings n i r e he
        rw [h1] at hei
        obtain ⟨e', he', hei'⟩ := List.mem_filterMap.mp hb
        obtain ⟨j, hij, hj⟩ := loopEvents_idx settings rs (nextNum n r) (i + 1) e' he'
        rw [hj] at hei'
        cases hei; cases hei'
        omega

/-- C3: for every data record at arrival index `j`, the Writer loop's
trace contains the forward attempt strictly before the persistence
attempt; the indices carried by the trace's events are non-decreasing
(each record's events — including the persistence hand-off `queuedEv` —
are complete before any event of a later record); consequently the
persistence channel receives the persisted records in exact arrival
order with their sequence numbers. -/
theorem c3_forward_before_persist (settings : Settings) (input : List Record) :
    ∃ st, doLoop settings ⟨0, [], Option.some [], []⟩ 0 input = StepResult.ok st ∧
      (∀ (j : Nat) (hj : j < input.length),
        (input.get ⟨j, hj⟩).recordType = RecordType.data →
        List.Sublist [Event.sendAttempt j, Event.storeAttempt j] st.trace) ∧
      ((st.trace.filterMap eventIdx).Pairwise (· ≤ ·)) ∧
      st.storeChan = Option.some (assignNums 1 (input.filter persistEligible)) := by
  refine ⟨_, doLoop_char settings input 0 [] [] [] 0, ?_, ?_, rfl⟩
  · intro j hj hdata
    obtain ⟨n', pre, post, hpre⟩ := loopEvents_get settings input 0 0 j hj
    have hsub := recordEvents_send_store settings n' (0 + j) (input.get ⟨j, hj⟩) hdata
    rw [Nat.zero_add] at hsub
    show List.Sublist [Event.sendAttempt j, Event.storeAttempt j]
      (loopEvents settings 0 0 input)
    rw [hpre, Nat.zero_add]
    refine hsub.trans ?_
    exact (List.sublist_append_left _ post).trans (List.sublist_append_right pre _)
  · show (((loopEvents settings 0 0 input).filterMap eventIdx)).Pairwise (· ≤ ·)
    exact loopEvents_pairwise settings input 0 0

/-- C3 witness: the scenario input, online, with the ordering facts
extracted for the data record at index 0. -/
theorem c3_forward_before_persist_witness :
    ∃ st, doLoop ⟨false, false⟩ ⟨0, [], Option.some [], []⟩ 0 [recA, recB, recC, recD] =
        StepResult.ok st ∧
      List.Sublist [Event.sendAttempt 0, Event.storeAttempt 0] st.trace ∧
      ((st.trace.filterMap eventIdx).Pairwise (· ≤ ·)) ∧
      st.storeChan = Option.some
        (assignNums 1 ([recA, recB, recC, recD].filter persistEligible)) := by
  obtain ⟨st, h1, h2, h3, h4⟩ :=
    c3_forward_before_persist ⟨false, false⟩ [recA, recB, recC, recD]
  exact ⟨st, h1, h2 0 (by decide) (by decide), h3, h4⟩

theorem workerLoop_append (m : Record → Option (List Nat)) (w : List Nat → Bool) :
    ∀ (l1 l2 : List Record),
      workerLoop m w (l1 ++ l2) =
        ((workerLoop m w l1).1 ++ (workerLoop m w l2).1,
         (workerLoop m w l1).2 ++ (workerLoop m w l2).2) := by
  intro l1 l2
  induction l1 with
  | nil => simp [workerLoop]
  | cons r l1 ih =>
      simp only [List.cons_append, workerLoop, List.append_eq]
      rw [ih]
      cases hm : m r with
      | none => simp
      | some out => by_cases hw : w out = true <;> simp [hw]

theorem doLoop_cons_some (settings : Settings) (n : Int) (f q : List Record)
    (t : List Event) (i : Nat) (r : Record) (rs : List Record) :
    doLoop settings ⟨n, f, Option.some q, t⟩ i (r :: rs) =
      doLoop settings ⟨nextNum n r, f ++ fwdRecordModel settings n r,
        Option.some (q ++ (if persistEligible r then [{ r with num := n + 1 }] else [])),
        t ++ recordEvents settings n i r⟩ (i + 1) rs := by
  rw [doLoop, handleRecord_some]

theorem doLoop_cons_nilrec (settings : Settings) (st : WriterState) (i : Nat)
    (r : Record) (rs : List Record) (h : r.recordType = RecordType.nil) :
    doLoop settings st i (r :: rs) =
      doLoop settings { st with trace := st.trace ++ [Event.nilLogged i] } (i + 1) rs := by
  have hnil : handleRecord settings st i r =
      StepResult.ok { st with trace := st.trace ++ [Event.nilLogged i] } := by
    obtain ⟨rt, c, nm, pl⟩ := r
    subst h
    rfl
  rw [doLoop, hnil]

theorem doLoop_obs (settings : Settings) :
    ∀ (rs : List Record) (n : Int) (f : List Record) (sc : Option (List Record))
      (t₁ t₂ : List Event) (i₁ i₂ : Nat),
      resultObs (doLoop settings ⟨n, f, sc, t₁⟩ i₁ rs) =
        resultObs (doLoop settings ⟨n, f, sc, t₂⟩ i₂ rs) := by
  intro rs
  induction rs with
  | nil => intro n f sc t₁ t₂ i₁ i₂; rfl
  | cons r rs ih =>
      intro n f sc t₁ t₂ i₁ i₂
      cases sc with
      | some q =>
          rw [doLoop_cons_some, doLoop_cons_some]
          exact ih (nextNum n r) (f ++ fwdRecordModel settings n r)
            (Option.some (q ++ (if persistEligible r then [{ r with num := n + 1 }] else [])))
            (t₁ ++ recordEvents settings n i₁ r) (t₂ ++ recordEvents settings n i₂ r)
            (i₁ + 1) (i₂ + 1)
      | none =>
          by_cases he : persistEligible r = true
          · rw [doLoop, handleRecord_none_blocked settings n f t₁ i₁ r he]
            rw [doLoop, handleRecord_none_blocked settings n f t₂ i₂ r he]
            rfl
          · have he' : persistEligible r = false := by simpa using he
            rw [doLoop, handleRecord_none_skip settings n f t₁ i₁ r he']
            rw [doLoop, handleRecord_none_skip settings n f t₂ i₂ r he']
            exact ih n (f ++ fwdRecordModel settings n r) Option.none
              (t₁ ++ recordEvents settings n i₁ r) (t₂ ++ recordEvents settings n i₂ r)
              (i₁ + 1) (i₂ + 1)

theorem doLoop_nilrec_skip (settings : Settings) :
    ∀ (l1 l2 : List Record) (bad : Record) (st : WriterState) (i : Nat),
      bad.recordType = RecordType.nil →
      resultObs (doLoop settings st i (l1 ++ bad :: l2)) =
        resultObs (doLoop settings st i (l1 ++ l2)) := by
  intro l1
  induction l1 with
  | nil =>
      intro l2 bad st i hbad
      obtain ⟨n, f, sc, t⟩ := st
      rw [List.nil_append, List.nil_append,
        doLoop_cons_nilrec settings ⟨n, f, sc, t⟩ i bad l2 hbad]
      exact doLoop_obs settings l2 n f sc (t ++ [Event.nilLogged i]) t (i + 1) i
  | cons x l1 ih =>
      intro l2 bad st i hbad
      rw [List.cons_append, List.cons_append]
      rw [doLoop, doLoop]
      cases hx : handleRecord settings st i x with
      | ok st' => exact ih l2 bad st' (i + 1) hbad
      | blockedOnNilStore st' j rb => rfl

theorem loopEvents_nilLogged_mem (settings : Settings) :
    ∀ (l1 l2 : List Record) (bad : Record) (n : Int) (i : Nat),
      bad.recordType = RecordType.nil →
      Event.nilLogged (i + l1.length) ∈ loopEvents settings n i (l1 ++ bad :: l2) := by
  intro l1
  induction l1 with
  | nil =>
      intro l2 bad n i hbad
      obtain ⟨rt, c, nm, pl⟩ := bad
      subst hbad
      simp [loopEvents, recordEvents]
  | cons x l1 ih =>
      intro l2 bad n i hbad
      rw [List.cons_append, loopEvents, List.mem_append]
      right
      have := ih l2 bad (nextNum n x) (i + 1) hbad
      have harith : i + 1 + l1.length = i + (x :: l1).length := by
        simp only [List.length_cons]; omega
      rwa [harith] at this

/-- C8: per-record failures are non-fatal and non-propagating.
(1) A record whose serialization fails is logged (`marshalFailed`) and
skipped by the persistence worker, the stored frames being exactly those
of the run without it.  (2) A record whose store write fails is logged
(`writeFailed`) and skipped likewise.  (3) An inbound record with a nil
payload variant changes nothing the loop observes — the whole run's
counter, both channels, and its blocked-or-ok outcome are exactly those
of the input without that record — and (4) when the store is up the run
completes with the nil record logged (`nilLogged`) at its arrival index.
No failure outcome is surfaced to the record's originator: the loop and
worker results carry no error value. -/
theorem c8_per_record_failures :
    (∀ (m : Record → Option (List Nat)) (w : List Nat → Bool)
       (l1 l2 : List Record) (bad : Record),
       m bad = Option.none →
         workerDrain m w (l1 ++ bad :: l2) = workerDrain m w (l1 ++ l2) ∧
         Event.marshalFailed bad ∈ workerRun m w (l1 ++ bad :: l2)) ∧
    (∀ (m : Record → Option (List Nat)) (w : List Nat → Bool)
       (l1 l2 : List Record) (bad : Record) (out : List Nat),
       m bad = Option.some out → w out = false →
         workerDrain m w (l1 ++ bad :: l2) = workerDrain m w (l1 ++ l2) ∧
         Event.writeFailed bad ∈ workerRun m w (l1 ++ bad :: l2)) ∧
    (∀ (settings : Settings) (sc : Option (List Record)) (l1 l2 : List Record)
       (bad : Record), bad.recordType = RecordType.nil →
         resultObs (doLoop settings ⟨0, [], sc, []⟩ 0 (l1 ++ bad :: l2)) =
           resultObs (doLoop settings ⟨0, [], sc, []⟩ 0 (l1 ++ l2))) ∧
    (∀ (settings : Settings) (l1 l2 : List Record) (bad : Record),
       bad.recordType = RecordType.nil →
       ∃ st, doLoop settings ⟨0, [], Option.some [], []⟩ 0 (l1 ++ bad :: l2) =
           StepResult.ok st ∧ Event.nilLogged l1.length ∈ st.trace) := by
  refine ⟨?_, ?_, ?_, ?_⟩
  · intro m w l1 l2 bad hm
    constructor
    · show (workerLoop m w (l1 ++ bad :: l2)).2 = (workerLoop m w (l1 ++ l2)).2
      rw [workerLoop_append, workerLoop_append]
      simp only [workerLoop, hm]
    · show Event.marshalFailed bad ∈ (workerLoop m w (l1 ++ bad :: l2)).1
      rw [workerLoop_append]
      simp only [workerLoop, hm]
      simp
  · intro m w l1 l2 bad out hm hw
    constructor
    · show (workerLoop m w (l1 ++ bad :: l2)).2 = (workerLoop m w (l1 ++ l2)).2
      rw [workerLoop_append, workerLoop_append]
      simp only [workerLoop, hm, hw]
      simp [hw]
    · show Event.writeFailed bad ∈ (workerLoop m w (l1 ++ bad :: l2)).1
      rw [workerLoop_append]
      simp only [workerLoop, hm, hw]
      simp [hw]
  · intro settings sc l1 l2 bad hbad
    exact doLoop_nilrec_skip settings l1 l2 bad ⟨0, [], sc, []⟩ 0 hbad
  · intro settings l1 l2 bad hbad
    refine ⟨_, doLoop_char settings (l1 ++ bad :: l2) 0 [] [] [] 0, ?_⟩
    show Event.nilLogged l1.length ∈
      ([] ++ loopEvents settings 0 0 (l1 ++ bad :: l2))
    have := loopEvents_nilLogged_mem settings l1 l2 bad 0 0 hbad
    simpa using this

/-- C8 witness: a marshal failure on B, a write failure on B, and a
nil-variant record between A and D. -/
theorem c8_per_record_failures_witness :
    (workerDrain (fun r => if r.payload = 2 then Option.none else Option.some [r.payload])
        wTriv ([recA] ++ recB :: [recD]) =
      workerDrain (fun r => if r.payload = 2 then Option.none else Option.some [r.payload])
        wTriv ([recA] ++ [recD]) ∧
      Event.marshalFailed recB ∈
        workerRun (fun r => if r.payload = 2 then Option.none else Option.some [r.payload])
          wTriv ([recA] ++ recB :: [recD])) ∧
    (workerDrain mTriv (fun out => !(out = [2] : Bool)) ([recA] ++ recB :: [recD]) =
      workerDrain mTriv (fun out => !(out = [2] : Bool)) ([recA] ++ [recD]) ∧
      Event.writeFailed recB ∈
        workerRun mTriv (fun out => !(out = [2] : Bool)) ([recA] ++ recB :: [recD])) ∧
    (resultObs (doLoop ⟨false, false⟩ ⟨0, [], Option.some [], []⟩ 0
        ([recA] ++ { recordType := RecordType.nil, payload := 9 } :: [recD])) =
      resultObs (doLoop ⟨false, false⟩ ⟨0, [], Option.some [], []⟩ 0
        ([recA] ++ [recD]))) ∧
    (∃ st, doLoop ⟨false, false⟩ ⟨0, [], Option.some [], []⟩ 0
        ([recA] ++ { recordType := RecordType.nil, payload := 9 } :: [recD]) =
        StepResult.ok st ∧ Event.nilLogged [recA].length ∈ st.trace) :=
  ⟨c8_per_record_failures.1
      (fun r => if r.payload = 2 then Option.none else Option.some [r.payload])
      wTriv [recA] [recD] recB (by decide),
   c8_per_record_failures.2.1 mTriv (fun out => !(out = [2] : Bool))
      [recA] [recD] recB [2] (by decide) (by decide),
   c8_per_record_failures.2.2.1 ⟨false, false⟩ (Option.some []) [recA] [recD]
      { recordType := RecordType.nil, payload := 9 } rfl,
   c8_per_record_failures.2.2.2 ⟨false, false⟩ [recA] [recD]
      { recordType := RecordType.nil, payload := 9 } rfl⟩

theorem workerRun_covers (m : Record → Option (List Nat)) (w : List Nat → Bool) :
    ∀ q : List Record, (workerRun m w q).filterMap evtRecord = q := by
  intro q
  induction q with
  | nil => rfl
  | cons r q ih =>
      have ih' : ((workerLoop m w q).1).filterMap evtRecord = q := ih
      show ((workerLoop m w (r :: q)).1).filterMap evtRecord = r :: q
      cases hm : m r with
      | none => simp [workerLoop, hm, List.filterMap_cons, evtRecord, ih']
      | some out =>
          by_cases hw : w out = true <;>
            simp [workerLoop, hm, hw, List.filterMap_cons, evtRecord, ih']

theorem workerRun_events (m : Record → Option (List Nat)) (w : List Nat → Bool) :
    ∀ q : List Record, ∀ e ∈ workerRun m w q, (evtRecord e).isSome = true := by
  intro q
  induction q with
  | nil => intro e he; simp [workerRun, workerLoop] at he
  | cons r q ih =>
      intro e he
      have he' : e ∈ (workerLoop m w (r :: q)).1 := he
      cases hm : m r with
      | none =>
          simp only [workerLoop, hm] at he'
          rcases List.mem_cons.mp he' with rfl | h
          · rfl
          · exact ih e h
      | some out =>
          by_cases hw : w out = true
          · simp only [workerLoop, hm, if_pos hw] at he'
            rcases List.mem_cons.mp he' with rfl | h
            · rfl
            · exact ih e h
          · simp only [workerLoop, hm, if_neg hw] at he'
            rcases List.mem_cons.mp he' with rfl | h
            · rfl
            · exact ih e h

theorem loopEvents_no_storeClosed (settings : Settings) (rs : List Record)
    (n : Int) (i : Nat) : Event.storeClosed ∉ loopEvents settings n i rs := by
  intro h
  obtain ⟨j, _, hj⟩ := loopEvents_idx settings rs n i Event.storeClosed h
  simp [eventIdx] at hj

theorem loopEvents_no_fwdClosed (settings : Settings) (rs : List Record)
    (n : Int) (i : Nat) : Event.fwdClosed ∉ loopEvents settings n i rs := by
  intro h
  obtain ⟨j, _, hj⟩ := loopEvents_idx settings rs n i Event.fwdClosed h
  simp [eventIdx] at hj

theorem workerRun_no_storeClosed (m : Record → Option (List Nat))
    (w : List Nat → Bool) (q : List Record) :
    Event.storeClosed ∉ workerRun m w q := by
  intro h
  have := workerRun_events m w q Event.storeClosed h
  simp [evtRecord] at this

/-- C9: once the inbound channel closes (run with an opened store), the
Writer closes the forwarding channel, then the store channel, and `Do`
returns (`doReturned`, the final trace event) only after the persistence
worker has produced exactly one event per queued record — covering the
whole queue in order, no queued record discarded — and then closed the
store; `storeClosed` appears exactly once (it occurs neither among the
loop's events nor among the worker's per-record events); the frames on
disk are exactly the worker's processing of the full queue, and the
forwarding-channel contents are untouched by shutdown. -/
theorem c9_shutdown_drain (settings : Settings) (m : Record → Option (List Nat))
    (w : List Nat → Bool) (input : List Record) (st : WriterState)
    (frames : List (List Nat))
    (hSync : settings.xSync = false)
    (hDo : writerDo settings true m w input = DoResult.completed st frames) :
    ∃ q tLoop,
      st.storeChan = Option.some q ∧
      st.trace = tLoop ++ [Event.fwdClosed, Event.storeChanClosed, Event.closedLogged] ++
        workerRun m w q ++ [Event.storeClosed, Event.doReturned] ∧
      (workerRun m w q).filterMap evtRecord = q ∧
      frames = workerDrain m w q ∧
      Event.fwdClosed ∉ tLoop ∧
      Event.storeClosed ∉ tLoop ∧
      Event.storeClosed ∉ workerRun m w q := by
  rw [writerDo_completed_char settings m w input hSync] at hDo
  injection hDo with h1 h2
  subst h1
  exact ⟨assignNums 1 (input.filter persistEligible), loopEvents settings 0 0 input,
    rfl, rfl, workerRun_covers m w _, h2.symm,
    loopEvents_no_fwdClosed settings input 0 0,
    loopEvents_no_storeClosed settings input 0 0,
    workerRun_no_storeClosed m w _⟩

/-- C9 witness: the scenario input run online. -/
theorem c9_shutdown_drain_witness :
    ∃ q tLoop,
      (stOf (writerDo ⟨false, false⟩ true mTriv wTriv [recA, recB, recC, recD])).storeChan =
        Option.some q ∧
      (stOf (writerDo ⟨false, false⟩ true mTriv wTriv [recA, recB, recC, recD])).trace =
        tLoop ++ [Event.fwdClosed, Event.storeChanClosed, Event.closedLogged] ++
        workerRun mTriv wTriv q ++ [Event.storeClosed, Event.doReturned] ∧
      (workerRun mTriv wTriv q).filterMap evtRecord = q ∧
      framesOf (writerDo ⟨false, false⟩ true mTriv wTriv [recA, recB, recC, recD]) =
        workerDrain mTriv wTriv q ∧
      Event.fwdClosed ∉ tLoop ∧
      Event.storeClosed ∉ tLoop ∧
      Event.storeClosed ∉ workerRun mTriv wTriv q :=
  c9_shutdown_drain ⟨false, false⟩ mTriv wTriv [recA, recB, recC, recD]
    (stOf (writerDo ⟨false, false⟩ true mTriv wTriv [recA, recB, recC, recD]))
    (framesOf (writerDo ⟨false, false⟩ true mTriv wTriv [recA, recB, recC, recD]))
    rfl rfl

end WandbWriter
